import Mathlib

/-!
Shallow embedding of `src/components/SessionsPage/SessionsPage.tsx`
(redback-fit-web).

Conventions of the embedding:
* JavaScript numbers are modelled as rationals (`ℚ`); instants (the values
  produced by `new Date(iso).getTime()`) are modelled directly as their
  epoch-millisecond value in `ℚ`.
* Optional / possibly-`undefined` values are `Option`s; `undefined`/`null`
  is `none`.
* `Math.max`, `Math.abs`, `Math.floor`, `Math.round` are `max`, `|·|`,
  `Int.floor` and `jsRound` (JavaScript rounds half up).
* `Math.random()` calls inside the enrichment are modelled by injected
  functions `ℕ → ℚ` giving the random draw used at a given row index.
-/

/-- Model of JavaScript `Math.round`: round half toward +∞. -/
def jsRound (q : ℚ) : ℤ := ⌊q + 1/2⌋

/-- Model of JavaScript `String.prototype.padStart(2, "0")`. -/
def padStart2 (s : String) : String :=
  if 2 ≤ s.length then s else String.mk (List.replicate (2 - s.length) '0') ++ s

/-- Model of `WeatherObservation` from `types/session`; fields as consumed by the page.
The `timestamp` ISO string is modelled by its epoch-millisecond instant. -/
structure WeatherObservation where
  timestamp : ℚ
  temperature_c : Option ℚ
  humidity_pct : Option ℚ
  wind_speed_ms : Option ℚ
  precipitation_mm : Option ℚ
deriving DecidableEq, Repr

/-- Model of `Session` from `types/session`; fields as consumed by the page.
ISO timestamps modelled by their epoch-millisecond instants. -/
structure Session where
  id : ℕ
  start_time : ℚ
  end_time : ℚ
  sport : Option String
  distance_km : Option ℚ
  calories : Option ℚ
  avg_hr : Option ℚ
  steps : Option ℚ
  spo2_pct : Option ℚ
  lat : ℚ
  lon : ℚ
deriving DecidableEq, Repr

/-- Model of `UISession`: `Session` extended with the UI-only fields the enrichment
always assigns (lines 6-12 of the source). -/
structure UISession extends Session where
  coach : Option String
  training_type : Option String
  vo2max : ℚ
  duration_minutes : ℚ
  pace_min_per_km : Option ℚ
deriving DecidableEq, Repr

/-- Source `minutesBetween` (lines 41-45):
`Math.max(0, (b - a) / 60000)` on the two parsed instants. -/
def minutesBetween (aISO bISO : ℚ) : ℚ :=
  max 0 ((bISO - aISO) / 60000)

/-- Source `paceMinPerKm` (lines 46-49).  The JavaScript guard
`!distanceKm || distanceKm <= 0 || !minutes || minutes <= 0` returns
`undefined`; falsiness of a defined number means it is `0`. -/
def paceMinPerKm (distanceKm : Option ℚ) (minutes : Option ℚ) : Option ℚ :=
  match distanceKm, minutes with
  | some d, some m =>
      if d = 0 ∨ d ≤ 0 ∨ m = 0 ∨ m ≤ 0 then none else some (m / d)
  | _, _ => none

/-- Intermediate `m` of `fmtPace` (source line 52): `Math.floor(minPerKm)`. -/
def fmtPaceM (minPerKm : ℚ) : ℤ := ⌊minPerKm⌋

/-- Intermediate `s` of `fmtPace` (source line 53):
`Math.round((minPerKm - m) * 60)`. -/
def fmtPaceS (minPerKm : ℚ) : ℤ := jsRound ((minPerKm - fmtPaceM minPerKm) * 60)

/-- Source `fmtPace` (lines 50-55).  `!minPerKm` is true for `undefined`
and for the number `0`. -/
def fmtPace (minPerKm : Option ℚ) : String :=
  match minPerKm with
  | none => "—"
  | some x =>
      if x = 0 then "—"
      else toString (fmtPaceM x) ++ ":" ++ padStart2 (toString (fmtPaceS x)) ++ "/km"

/-- Absolute time difference between an observation and the target instant
(the expression `Math.abs(new Date(o.timestamp).getTime() - target)` of
source lines 60 and 62). -/
def tdiff (target : ℚ) (o : WeatherObservation) : ℚ := |o.timestamp - target|

/-- The scan loop of `pickClosest` (source lines 61-64), carrying the
`best` / `bestDiff` loop state; a candidate replaces the current best only
on a strictly smaller difference. -/
def pickBest (target : ℚ) : List WeatherObservation → WeatherObservation → ℚ → WeatherObservation
  | [], best, _ => best
  | o :: rest, best, bestDiff =>
      if tdiff target o < bestDiff then pickBest target rest o (tdiff target o)
      else pickBest target rest best bestDiff

/-- Source `pickClosest` (lines 56-66).  The JavaScript loop runs over the
whole array, starting from state `best = observations[0]`. -/
def pickClosest (observations : List WeatherObservation) (target : ℚ) :
    Option WeatherObservation :=
  match observations with
  | [] => none
  | o0 :: _ => some (pickBest target observations o0 (tdiff target o0))

/-- Coach label table (source line 89). -/
def coaches : List String := ["Sarah Eastern", "John Mitchell", "Linda Carter"]

/-- Training-type label table (source line 90). -/
def trainings : List String := ["Strength", "Cardio", "Flexibility", "Team Practice", "Tempo", "Intervals"]

/-- The enrichment body (source lines 92-108) for the element at position
`idx`.  `spo2Rand`/`vo2Rand` model the `Math.random()` draws used at that
index; `cs`/`ts` are the label tables; JavaScript out-of-range indexing
yields `undefined`, hence `Option` via `getElem?`. -/
def enrichOne (spo2Rand vo2Rand : ℕ → ℚ) (cs ts : List String)
    (idx : ℕ) (s : Session) : UISession :=
  let duration := minutesBetween s.start_time s.end_time
  let pace := paceMinPerKm s.distance_km (some duration)
  { toSession :=
      { s with spo2_pct := some (s.spo2_pct.getD ((⌊(94:ℚ) + spo2Rand idx * 6⌋ : ℤ) : ℚ)) }
    coach := cs[idx % cs.length]?
    training_type := ts[idx % ts.length]?
    vo2max := ((⌊(45:ℚ) + vo2Rand idx * 20⌋ : ℤ) : ℚ)
    duration_minutes := duration
    pace_min_per_km := pace }

/-- The indexed `data.map((s, idx) => …)` of the enrichment, unfolded as a
recursion carrying the current index. -/
def enrichGo (spo2Rand vo2Rand : ℕ → ℚ) (cs ts : List String) :
    ℕ → List Session → List UISession
  | _, [] => []
  | idx, s :: rest =>
      enrichOne spo2Rand vo2Rand cs ts idx s ::
        enrichGo spo2Rand vo2Rand cs ts (idx + 1) rest

/-- Source `enriched` (lines 92-108): indexed map of `enrichOne` over the
fetched session list, starting at index 0. -/
def enrich (spo2Rand vo2Rand : ℕ → ℚ) (cs ts : List String)
    (data : List Session) : List UISession :=
  enrichGo spo2Rand vo2Rand cs ts 0 data

/-- The filter predicate of `filtered` (source lines 134-138): an absent
bound (`none`, i.e. the empty date string) behaves as `-Infinity` /
`+Infinity`, so the corresponding comparison is vacuously true. -/
def inRangeB (fromDate toDate : Option ℚ) (t : ℚ) : Bool :=
  (match fromDate with
   | none => true
   | some f => decide (f ≤ t)) &&
  (match toDate with
   | none => true
   | some u => decide (t ≤ u))

/-- Source `filtered` (lines 132-140): if both date bounds are absent the
row list is returned unchanged, otherwise rows are kept when their start
instant lies within the (inclusive) bounds. -/
def filteredRows (rows : List UISession) (fromDate toDate : Option ℚ) :
    List UISession :=
  if fromDate = none ∧ toDate = none then rows
  else rows.filter fun r => inRangeB fromDate toDate r.start_time

/-- The fixed column key space (source lines 14-17). -/
inductive ColumnKey
  | id | start | end_ | duration | pace
  | sport | distance | calories | avg_hr | steps
  | spo2 | vo2max | coach | training | weather
deriving DecidableEq, Repr

/-- Source `defaultVisible` (lines 19-35). -/
def defaultVisible : ColumnKey → Bool
  | .id => true
  | .start => true
  | .end_ => false
  | .duration => true
  | .pace => false
  | .sport => true
  | .distance => true
  | .calories => false
  | .avg_hr => false
  | .steps => false
  | .spo2 => true
  | .vo2max => false
  | .coach => false
  | .training => false
  | .weather => true

/-- Source `toggleCol` (lines 142-144): the spread `{ ...v, [k]: !v[k] }`
inverts the boolean at `k` and copies every other key. -/
def toggleCol (v : ColumnKey → Bool) (k : ColumnKey) : ColumnKey → Bool :=
  fun k2 => if k2 = k then !(v k) else v k2

/-- The component state touched by `onRowClick`: the current selection and
the per-session weather cache `weatherById`. -/
structure ViewState where
  selected : Option UISession
  weatherById : ℕ → Option (List WeatherObservation)

/-- Source `onRowClick` (lines 120-130).  The outcome of the (awaited)
`getSessionWeather` call is passed in as `fetchResult`; it is consulted
only when the cache has no entry for `s.id` (`!weatherById[s.id]`; a
present entry, even an empty array, is truthy).  On success the result is
inserted under `s.id`; on failure the error is only logged and no state
is written. -/
def onRowClick (st : ViewState) (s : UISession)
    (fetchResult : Except String (List WeatherObservation)) : ViewState :=
  let st1 : ViewState := { st with selected := some s }
  if (st1.weatherById s.toSession.id).isSome then st1
  else
    match fetchResult with
    | .ok wx =>
        { st1 with weatherById := fun j => if j = s.toSession.id then some wx else st1.weatherById j }
    | .error _ => st1

/-! ## Claims -/

/-- C5: `paceMinPerKm` returns `none` (undefined) unless distance > 0 and
duration > 0, in which case it returns duration / distance; it is a total
function, absence being the only failure signal.  In particular
pace(0, 10) = undefined, pace(5, 0) = undefined, pace(5, 25) = 5. -/
theorem C5_paceMinPerKm (d m : ℚ) :
    paceMinPerKm (some d) (some m) = (if 0 < d ∧ 0 < m then some (m / d) else none)
  ∧ paceMinPerKm none (some m) = none
  ∧ paceMinPerKm (some d) none = none
  ∧ paceMinPerKm none none = none
  ∧ paceMinPerKm (some 0) (some 10) = none
  ∧ paceMinPerKm (some 5) (some 0) = none
  ∧ paceMinPerKm (some 5) (some 25) = some 5 := by
  have key : ∀ d' m' : ℚ,
      paceMinPerKm (some d') (some m')
        = (if 0 < d' ∧ 0 < m' then some (m' / d') else none) := by
    intro d' m'
    have h : (d' = 0 ∨ d' ≤ 0 ∨ m' = 0 ∨ m' ≤ 0) ↔ ¬(0 < d' ∧ 0 < m') := by
      rw [not_and_or, not_lt, not_lt]
      constructor
      · rintro (h | h | h | h)
        · exact Or.inl (le_of_eq h)
        · exact Or.inl h
        · exact Or.inr (le_of_eq h)
        · exact Or.inr h
      · rintro (h | h)
        · exact Or.inr (Or.inl h)
        · exact Or.inr (Or.inr (Or.inr h))
    show (if d' = 0 ∨ d' ≤ 0 ∨ m' = 0 ∨ m' ≤ 0 then none else some (m' / d'))
        = (if 0 < d' ∧ 0 < m' then some (m' / d') else none)
    rw [if_congr h rfl rfl]
    by_cases hc : 0 < d' ∧ 0 < m'
    · rw [if_neg (not_not_intro hc), if_pos hc]
    · rw [if_pos hc, if_neg hc]
  refine ⟨key d m, rfl, rfl, rfl, ?_, ?_, ?_⟩
  · rw [key]; norm_num
  · rw [key]; norm_num
  · rw [key]
    rw [if_pos (by norm_num : (0:ℚ) < 5 ∧ (0:ℚ) < 25)]
    norm_num

/-- C6: `minutesBetween` returns the span end − start in minutes clamped
to be ≥ 0; `minutesBetween t t = 0` and when the end instant precedes the
start the result is 0, not an error. -/
theorem C6_minutesBetween (a b : ℚ) :
    0 ≤ minutesBetween a b
  ∧ minutesBetween a a = 0
  ∧ (b < a → minutesBetween a b = 0)
  ∧ (a ≤ b → minutesBetween a b = (b - a) / 60000) := by
  refine ⟨le_max_left 0 _, ?_, ?_, ?_⟩
  · unfold minutesBetween
    rw [sub_self, zero_div, max_self]
  · intro h
    unfold minutesBetween
    rw [max_eq_left (by linarith)]
  · intro h
    unfold minutesBetween
    rw [max_eq_right (by linarith)]

/-- Witness for C6 at concrete instants: a reversed span clamps to 0 and a
forward span of two minutes measures 2. -/
theorem C6_minutesBetween_witness :
    minutesBetween 5 3 = 0 ∧ minutesBetween 0 120000 = (120000 - 0) / 60000 :=
  ⟨(C6_minutesBetween 5 3).2.2.1 (by norm_num),
   (C6_minutesBetween 0 120000).2.2.2 (by norm_num)⟩

/-- C7: `toggleCol` inverts the boolean at the toggled key, leaves every
other key unchanged, and toggling the same key twice restores the original
visibility set. -/
theorem C7_toggleCol (v : ColumnKey → Bool) (k : ColumnKey) :
    toggleCol v k k = !(v k)
  ∧ (∀ k2, k2 ≠ k → toggleCol v k k2 = v k2)
  ∧ toggleCol (toggleCol v k) k = v := by
  refine ⟨?_, ?_, ?_⟩
  · unfold toggleCol
    rw [if_pos rfl]
  · intro k2 h
    unfold toggleCol
    rw [if_neg h]
  · funext k2
    unfold toggleCol
    by_cases h : k2 = k
    · subst h
      rw [if_pos rfl, if_pos rfl, Bool.not_not]
    · rw [if_neg h, if_neg h]

/-- Witness for C7 on the default visibility set: toggling `pace` leaves
`id` unchanged, and toggling `pace` twice restores the default set. -/
theorem C7_toggleCol_witness :
    toggleCol defaultVisible ColumnKey.pace ColumnKey.id = defaultVisible ColumnKey.id
  ∧ toggleCol (toggleCol defaultVisible ColumnKey.pace) ColumnKey.pace = defaultVisible :=
  ⟨(C7_toggleCol defaultVisible ColumnKey.pace).2.1 ColumnKey.id (by decide),
   (C7_toggleCol defaultVisible ColumnKey.pace).2.2⟩

/-- Helper: length of the padded seconds string is at least two. -/
lemma padStart2_length (s : String) : 2 ≤ (padStart2 s).length := by
  unfold padStart2
  by_cases h : 2 ≤ s.length
  · rw [if_pos h]
    exact h
  · rw [if_neg h]
    have hmk : (String.mk (List.replicate (2 - s.length) '0')).length
        = 2 - s.length := by
      show (List.replicate (2 - s.length) '0').length = 2 - s.length
      exact List.length_replicate _ _
    rw [String.length_append, hmk]
    omega

/-- Helper: `jsRound` differs from its argument by at most one half, i.e.
the seconds component is rounded, not truncated. -/
lemma jsRound_close (q : ℚ) : |q - (jsRound q : ℚ)| ≤ 1/2 := by
  unfold jsRound
  have h1 : ((⌊q + 1/2⌋ : ℤ) : ℚ) ≤ q + 1/2 := Int.floor_le _
  have h2 : q + 1/2 < ((⌊q + 1/2⌋ : ℤ) : ℚ) + 1 := Int.lt_floor_add_one _
  rw [abs_le]
  constructor <;> linarith

/-- C4: for a defined, non-falsy pace value `fmtPace` renders the string
`M:SS/km` where `M` is the floor of the value and `SS` the rounded (not
truncated) seconds component padded to at least two digits; `undefined`
and the falsy value `0` render as the placeholder dash. -/
theorem C4_fmtPace (x : ℚ) (hx : x ≠ 0) :
    fmtPace (some x)
      = toString (fmtPaceM x) ++ ":" ++ padStart2 (toString (fmtPaceS x)) ++ "/km"
  ∧ |(x - (fmtPaceM x : ℚ)) * 60 - (fmtPaceS x : ℚ)| ≤ 1/2
  ∧ 2 ≤ (padStart2 (toString (fmtPaceS x))).length
  ∧ fmtPace none = "—"
  ∧ fmtPace (some 0) = "—" := by
  refine ⟨?_, ?_, padStart2_length _, rfl, ?_⟩
  · show (if x = 0 then "—"
        else toString (fmtPaceM x) ++ ":" ++ padStart2 (toString (fmtPaceS x)) ++ "/km") = _
    rw [if_neg hx]
  · exact jsRound_close _
  · show (if (0:ℚ) = 0 then "—"
        else toString (fmtPaceM 0) ++ ":" ++ padStart2 (toString (fmtPaceS 0)) ++ "/km") = "—"
    rw [if_pos rfl]

/-- Witness for C4 at pace 5.0: the rendered string is the zero-padded
"5:00/km". -/
theorem C4_fmtPace_witness :
    (fmtPace (some (5:ℚ))
        = toString (fmtPaceM 5) ++ ":" ++ padStart2 (toString (fmtPaceS 5)) ++ "/km"
      ∧ |((5:ℚ) - (fmtPaceM 5 : ℚ)) * 60 - (fmtPaceS 5 : ℚ)| ≤ 1/2
      ∧ 2 ≤ (padStart2 (toString (fmtPaceS (5:ℚ)))).length
      ∧ fmtPace none = "—"
      ∧ fmtPace (some 0) = "—")
  ∧ fmtPace (some (5:ℚ)) = "5:00/km" := by
  refine ⟨C4_fmtPace 5 (by norm_num), ?_⟩
  have hm : fmtPaceM (5:ℚ) = 5 := by
    unfold fmtPaceM
    rw [Int.floor_eq_iff]
    norm_num
  have hs : fmtPaceS (5:ℚ) = 0 := by
    unfold fmtPaceS jsRound
    rw [hm]
    rw [Int.floor_eq_iff]
    norm_num
  show (if (5:ℚ) = 0 then "—"
      else toString (fmtPaceM 5) ++ ":" ++ padStart2 (toString (fmtPaceS 5)) ++ "/km") = "5:00/km"
  rw [if_neg (by norm_num : (5:ℚ) ≠ 0), hm, hs]
  decide

/-- C10: there is a defined pace input, 4.9999 min/km, whose fractional
minute part rounds to 60 seconds, so `fmtPace` renders "4:60/km" instead
of rolling over to the next minute: minutes are floored and seconds are
rounded independently. -/
theorem C10_fmtPace_sixty_seconds :
    fmtPace (some (49999/10000 : ℚ)) = "4:60/km"
  ∧ fmtPaceM (49999/10000 : ℚ) = 4
  ∧ fmtPaceS (49999/10000 : ℚ) = 60 := by
  have hm : fmtPaceM (49999/10000 : ℚ) = 4 := by
    unfold fmtPaceM
    rw [Int.floor_eq_iff]
    norm_num
  have hs : fmtPaceS (49999/10000 : ℚ) = 60 := by
    unfold fmtPaceS jsRound
    rw [hm]
    rw [Int.floor_eq_iff]
    norm_num
  refine ⟨?_, hm, hs⟩
  show (if (49999/10000 : ℚ) = 0 then "—"
      else toString (fmtPaceM (49999/10000 : ℚ)) ++ ":"
        ++ padStart2 (toString (fmtPaceS (49999/10000 : ℚ))) ++ "/km") = "4:60/km"
  rw [if_neg (by norm_num : (49999/10000 : ℚ) ≠ 0), hm, hs]
  decide

/-- C2: `filteredRows` is exactly the subsequence of rows whose start
instant lies between the bounds, inclusive on both ends; an absent bound
is unbounded on that side, and with both bounds absent the input list is
returned unchanged and in original order. -/
theorem C2_filteredRows (rows : List UISession) (lo hi : Option ℚ) :
    filteredRows rows lo hi
      = rows.filter (fun r => inRangeB lo hi r.toSession.start_time)
  ∧ (∀ t : ℚ, inRangeB lo hi t = true ↔ ((∀ l ∈ lo, l ≤ t) ∧ (∀ u ∈ hi, t ≤ u)))
  ∧ filteredRows rows none none = rows := by
  have hnone : ∀ rs : List UISession,
      rs.filter (fun r => inRangeB none none r.toSession.start_time) = rs := by
    intro rs
    have hp : (fun (r : UISession) => inRangeB none none r.toSession.start_time)
        = fun _ => true := by
      funext r
      rfl
    rw [hp, List.filter_true]
  refine ⟨?_, ?_, ?_⟩
  · unfold filteredRows
    by_cases h : lo = none ∧ hi = none
    · obtain ⟨rfl, rfl⟩ := h
      rw [if_pos ⟨rfl, rfl⟩, hnone]
    · rw [if_neg h]
  · intro t
    cases lo <;> cases hi <;> simp [inRangeB]
  · unfold filteredRows
    rw [if_pos ⟨rfl, rfl⟩]

/-- Helper: the indexed enrichment map preserves the list length. -/
lemma enrichGo_length (sr vr : ℕ → ℚ) (cs ts : List String) :
    ∀ (n : ℕ) (l : List Session), (enrichGo sr vr cs ts n l).length = l.length := by
  intro n l
  induction l generalizing n with
  | nil => rfl
  | cons s rest ih => simp [enrichGo, ih]

/-- Helper: the element at position `i` of the indexed enrichment map
starting at index `n` is the enrichment of the input element at `i`, at
running index `n + i`. -/
lemma enrichGo_get (sr vr : ℕ → ℚ) (cs ts : List String) :
    ∀ (l : List Session) (n i : ℕ) (hi : i < (enrichGo sr vr cs ts n l).length)
      (hl : i < l.length),
      (enrichGo sr vr cs ts n l).get ⟨i, hi⟩
        = enrichOne sr vr cs ts (n + i) (l.get ⟨i, hl⟩) := by
  intro l
  induction l with
  | nil =>
      intro n i hi hl
      exact absurd hl (Nat.not_lt_zero i)
  | cons s rest ih =>
      intro n i hi hl
      cases i with
      | zero => rfl
      | succ j =>
          have hi' : j < (enrichGo sr vr cs ts (n + 1) rest).length := by
            have := hi
            simp [enrichGo] at this
            rw [enrichGo_length] at this ⊢
            omega
          have hl' : j < rest.length := by
            simpa using hl
          show (enrichGo sr vr cs ts (n + 1) rest).get ⟨j, hi'⟩
              = enrichOne sr vr cs ts (n + (j + 1)) ((s :: rest).get ⟨j + 1, hl⟩)
          rw [ih (n + 1) j hi' hl']
          have harith : n + 1 + j = n + (j + 1) := by omega
          rw [harith]
          rfl

/-- Helper: enrichment preserves the session ids, in order. -/
lemma enrichGo_map_id (sr vr : ℕ → ℚ) (cs ts : List String) :
    ∀ (n : ℕ) (l : List Session),
      (enrichGo sr vr cs ts n l).map (fun u => u.toSession.id) = l.map Session.id := by
  intro n l
  induction l generalizing n with
  | nil => rfl
  | cons s rest ih => simp [enrichGo, enrichOne, ih]

/-- C3: enrichment returns a list of the same length and order, one-to-one
with the input (session ids are preserved positionally), and the element
at position `i` gets coach `cs[i % |cs|]` and training type
`ts[i % |ts|]`, cyclically and deterministically in `i`. -/
theorem C3_enrich (sr vr : ℕ → ℚ) (cs ts : List String) (data : List Session)
    (hc : cs ≠ []) (ht : ts ≠ []) :
    (enrich sr vr cs ts data).length = data.length
  ∧ (enrich sr vr cs ts data).map (fun u => u.toSession.id) = data.map Session.id
  ∧ ∀ i, ∀ hi : i < (enrich sr vr cs ts data).length,
      ((enrich sr vr cs ts data).get ⟨i, hi⟩).coach
          = some (cs.get ⟨i % cs.length, Nat.mod_lt i (List.length_pos.mpr hc)⟩)
    ∧ ((enrich sr vr cs ts data).get ⟨i, hi⟩).training_type
          = some (ts.get ⟨i % ts.length, Nat.mod_lt i (List.length_pos.mpr ht)⟩) := by
  refine ⟨enrichGo_length sr vr cs ts 0 data, enrichGo_map_id sr vr cs ts 0 data, ?_⟩
  intro i hi
  have hl : i < data.length := by
    rw [← enrichGo_length sr vr cs ts 0 data]
    exact hi
  have hget : (enrich sr vr cs ts data).get ⟨i, hi⟩
      = enrichOne sr vr cs ts (0 + i) (data.get ⟨i, hl⟩) :=
    enrichGo_get sr vr cs ts data 0 i hi hl
  rw [hget, Nat.zero_add]
  constructor
  · show cs[i % cs.length]? = _
    rw [List.getElem?_eq_getElem (Nat.mod_lt i (List.length_pos.mpr hc))]
    rw [List.get_eq_getElem]
  · show ts[i % ts.length]? = _
    rw [List.getElem?_eq_getElem (Nat.mod_lt i (List.length_pos.mpr ht))]
    rw [List.get_eq_getElem]

/-- A minimal raw session used by concrete witnesses. -/
def sampleSession (n : ℕ) : Session :=
  { id := n, start_time := 0, end_time := 0, sport := none, distance_km := none,
    calories := none, avg_hr := none, steps := none, spo2_pct := none,
    lat := 0, lon := 0 }

/-- Five raw sessions, matching the spec's cyclic-assignment example. -/
def data5 : List Session :=
  [sampleSession 0, sampleSession 1, sampleSession 2, sampleSession 3, sampleSession 4]

/-- Witness for C3 on five sessions and the three-element coach table:
the session at position 3 cycles back to coach index 3 % 3 = 0. -/
theorem C3_enrich_witness :
    ((enrich (fun _ => (0:ℚ)) (fun _ => (0:ℚ)) coaches trainings data5).get
        ⟨3, by decide⟩).coach
      = some (coaches.get ⟨3 % coaches.length, by decide⟩) :=
  ((C3_enrich (fun _ => (0:ℚ)) (fun _ => (0:ℚ)) coaches trainings data5
      (by decide) (by decide)).2.2 3 (by decide)).1

/-- C9: enrichment passes a present (non-nullish) blood-oxygen value
through unchanged — including the value 0 — and substitutes the synthetic
`⌊94 + 6·random⌋`, an integer in [94, 99], only when the field is absent:
the source uses the nullish `??` operator, not a truthiness check. -/
theorem C9_spo2 (sr vr : ℕ → ℚ) (cs ts : List String) (data : List Session)
    (i : ℕ) (hi : i < (enrich sr vr cs ts data).length) (hd : i < data.length) :
    (∀ v : ℚ, (data.get ⟨i, hd⟩).spo2_pct = some v →
        ((enrich sr vr cs ts data).get ⟨i, hi⟩).spo2_pct = some v)
  ∧ ((data.get ⟨i, hd⟩).spo2_pct = none →
        ((enrich sr vr cs ts data).get ⟨i, hi⟩).spo2_pct
          = some ((⌊(94:ℚ) + sr i * 6⌋ : ℤ) : ℚ))
  ∧ (0 ≤ sr i → sr i < 1 →
        94 ≤ ⌊(94:ℚ) + sr i * 6⌋ ∧ ⌊(94:ℚ) + sr i * 6⌋ ≤ 99) := by
  have hget : (enrich sr vr cs ts data).get ⟨i, hi⟩
      = enrichOne sr vr cs ts (0 + i) (data.get ⟨i, hd⟩) :=
    enrichGo_get sr vr cs ts data 0 i hi hd
  refine ⟨?_, ?_, ?_⟩
  · intro v hv
    rw [hget]
    show some (((data.get ⟨i, hd⟩).spo2_pct).getD _) = some v
    rw [hv]
    rfl
  · intro hv
    rw [hget, Nat.zero_add]
    show some (((data.get ⟨i, hd⟩).spo2_pct).getD ((⌊(94:ℚ) + sr i * 6⌋ : ℤ) : ℚ)) = _
    rw [hv]
    rfl
  · intro h0 h1
    constructor
    · apply Int.le_floor.mpr
      push_cast
      linarith
    · have hlt : ⌊(94:ℚ) + sr i * 6⌋ < 100 := by
        apply Int.floor_lt.mpr
        push_cast
        linarith
      omega

/-- A raw session whose blood-oxygen field is present with value 0. -/
def sessionSpo2Zero : Session :=
  { sampleSession 7 with spo2_pct := some 0 }

/-- One-element session list for the C9 witness. -/
def dataSpo2 : List Session := [sessionSpo2Zero]

/-- Witness for C9: a present blood-oxygen value of 0 survives enrichment
unchanged, and a random draw of 0 puts the synthetic value at the lower
bound 94 of its range. -/
theorem C9_spo2_witness :
    ((enrich (fun _ => (0:ℚ)) (fun _ => (0:ℚ)) coaches trainings dataSpo2).get
        ⟨0, by decide⟩).spo2_pct = some 0
  ∧ (94 ≤ ⌊(94:ℚ) + (0:ℚ) * 6⌋ ∧ ⌊(94:ℚ) + (0:ℚ) * 6⌋ ≤ 99) :=
  ⟨(C9_spo2 (fun _ => (0:ℚ)) (fun _ => (0:ℚ)) coaches trainings dataSpo2 0
      (by decide) (by decide)).1 0 rfl,
   (C9_spo2 (fun _ => (0:ℚ)) (fun _ => (0:ℚ)) coaches trainings dataSpo2 0
      (by decide) (by decide)).2.2 (le_refl 0) (by norm_num)⟩

/-- C8: when the weather fetch triggered by a row click fails, the weather
cache is left entirely unchanged — no entry and no failure marker is
recorded — so a later re-selection of the same id still finds no cache
entry and can retry, and a successful retry then populates the slot. -/
theorem C8_onRowClick_failure (st : ViewState) (s : UISession) (e : String) :
    (onRowClick st s (Except.error e)).weatherById = st.weatherById
  ∧ (st.weatherById s.toSession.id = none →
        (onRowClick st s (Except.error e)).weatherById s.toSession.id = none)
  ∧ (∀ wx, st.weatherById s.toSession.id = none →
        (onRowClick (onRowClick st s (Except.error e)) s
            (Except.ok wx)).weatherById s.toSession.id = some wx) := by
  have hfail : (onRowClick st s (Except.error e)).weatherById = st.weatherById := by
    unfold onRowClick
    by_cases h : (st.weatherById s.toSession.id).isSome
    · rw [if_pos h]
    · rw [if_neg h]
  refine ⟨hfail, ?_, ?_⟩
  · intro h
    rw [hfail]
    exact h
  · intro wx h
    have hnone : (onRowClick st s (Except.error e)).weatherById s.toSession.id = none := by
      rw [hfail]
      exact h
    set st2 := onRowClick st s (Except.error e) with hst2
    unfold onRowClick
    simp [hnone]

/-- A concrete enriched row for the C8 witness. -/
def sampleUI : UISession :=
  { toSession := sampleSession 1, coach := none, training_type := none,
    vo2max := 0, duration_minutes := 0, pace_min_per_km := none }

/-- The initial view state: nothing selected, empty weather cache. -/
def emptyState : ViewState :=
  { selected := none, weatherById := fun _ => none }

/-- Witness for C8: a failed fetch for session 1 leaves its cache slot
empty, and a successful retry then fills exactly that slot. -/
theorem C8_onRowClick_failure_witness :
    (onRowClick emptyState sampleUI (Except.error "network down")).weatherById
        sampleUI.toSession.id = none
  ∧ (onRowClick (onRowClick emptyState sampleUI (Except.error "network down"))
        sampleUI (Except.ok [])).weatherById sampleUI.toSession.id = some [] :=
  ⟨(C8_onRowClick_failure emptyState sampleUI "network down").2.1 rfl,
   (C8_onRowClick_failure emptyState sampleUI "network down").2.2 [] rfl⟩

/-- Helper: full specification of the `pickClosest` scan loop.  Started at
accumulator `b` with its true difference, the loop returns a value that is
(1) at least as close as `b`, (2) at least as close as every scanned
element, and (3) either `b` itself, or a scanned element strictly closer
than `b` and strictly closer than every element scanned before it
(first-match-wins on ties, by the strict comparison). -/
lemma pickBest_spec (t : ℚ) :
    ∀ (l : List WeatherObservation) (b : WeatherObservation),
      tdiff t (pickBest t l b (tdiff t b)) ≤ tdiff t b
    ∧ (∀ o ∈ l, tdiff t (pickBest t l b (tdiff t b)) ≤ tdiff t o)
    ∧ (pickBest t l b (tdiff t b) = b
       ∨ ∃ i, ∃ hi : i < l.length,
           pickBest t l b (tdiff t b) = l.get ⟨i, hi⟩
         ∧ tdiff t (l.get ⟨i, hi⟩) < tdiff t b
         ∧ ∀ j, ∀ hj : j < l.length, j < i →
             tdiff t (l.get ⟨i, hi⟩) < tdiff t (l.get ⟨j, hj⟩)) := by
  intro l
  induction l with
  | nil =>
      intro b
      refine ⟨le_refl _, ?_, Or.inl rfl⟩
      intro o ho
      exact absurd ho (List.not_mem_nil o)
  | cons o rest ih =>
      intro b
      by_cases hlt : tdiff t o < tdiff t b
      · have hstep : pickBest t (o :: rest) b (tdiff t b)
            = (if tdiff t o < tdiff t b then pickBest t rest o (tdiff t o)
               else pickBest t rest b (tdiff t b)) := by
          simp only [pickBest]
        have heq : pickBest t (o :: rest) b (tdiff t b)
            = pickBest t rest o (tdiff t o) := by
          rw [hstep, if_pos hlt]
        obtain ⟨ih1, ih2, ih3⟩ := ih o
        rw [heq]
        refine ⟨le_of_lt (lt_of_le_of_lt ih1 hlt), ?_, ?_⟩
        · intro o2 ho2
          rcases List.mem_cons.mp ho2 with h | h
          · subst h
            exact ih1
          · exact ih2 o2 h
        · rcases ih3 with hb | ⟨i, hi, heq2, hlt2, hfirst⟩
          · refine Or.inr ⟨0, Nat.succ_pos _, ?_, ?_, ?_⟩
            · rw [hb]
              rfl
            · show tdiff t o < tdiff t b
              exact hlt
            · intro j hj hj0
              exact absurd hj0 (Nat.not_lt_zero j)
          · refine Or.inr ⟨i + 1, Nat.succ_lt_succ hi, ?_, ?_, ?_⟩
            · rw [heq2]
              rfl
            · show tdiff t (rest.get ⟨i, hi⟩) < tdiff t b
              exact lt_trans hlt2 hlt
            · intro j hj hjlt
              cases j with
              | zero =>
                  show tdiff t (rest.get ⟨i, hi⟩) < tdiff t o
                  exact hlt2
              | succ j2 =>
                  have hj2 : j2 < rest.length := Nat.lt_of_succ_lt_succ hj
                  have hjlt2 : j2 < i := Nat.lt_of_succ_lt_succ hjlt
                  show tdiff t (rest.get ⟨i, hi⟩) < tdiff t (rest.get ⟨j2, hj2⟩)
                  exact hfirst j2 hj2 hjlt2
      · have hge : tdiff t b ≤ tdiff t o := not_lt.mp hlt
        have hstep : pickBest t (o :: rest) b (tdiff t b)
            = (if tdiff t o < tdiff t b then pickBest t rest o (tdiff t o)
               else pickBest t rest b (tdiff t b)) := by
          simp only [pickBest]
        have heq : pickBest t (o :: rest) b (tdiff t b)
            = pickBest t rest b (tdiff t b) := by
          rw [hstep, if_neg hlt]
        obtain ⟨ih1, ih2, ih3⟩ := ih b
        rw [heq]
        refine ⟨ih1, ?_, ?_⟩
        · intro o2 ho2
          rcases List.mem_cons.mp ho2 with h | h
          · subst h
            exact le_trans ih1 hge
          · exact ih2 o2 h
        · rcases ih3 with hb | ⟨i, hi, heq2, hlt2, hfirst⟩
          · exact Or.inl hb
          · refine Or.inr ⟨i + 1, Nat.succ_lt_succ hi, ?_, ?_, ?_⟩
            · rw [heq2]
              rfl
            · show tdiff t (rest.get ⟨i, hi⟩) < tdiff t b
              exact hlt2
            · intro j hj hjlt
              cases j with
              | zero =>
                  show tdiff t (rest.get ⟨i, hi⟩) < tdiff t o
                  exact lt_of_lt_of_le hlt2 hge
              | succ j2 =>
                  have hj2 : j2 < rest.length := Nat.lt_of_succ_lt_succ hj
                  have hjlt2 : j2 < i := Nat.lt_of_succ_lt_succ hjlt
                  show tdiff t (rest.get ⟨i, hi⟩) < tdiff t (rest.get ⟨j2, hj2⟩)
                  exact hfirst j2 hj2 hjlt2

/-- C1: on a non-empty observation list `pickClosest` returns an
observation whose absolute time difference to the target is minimal, and
that observation occurs at an index before which every observation is
strictly farther — so among equidistant observations the
earliest-encountered one wins. -/
theorem C1_pickClosest (obs : List WeatherObservation) (t : ℚ) (hne : obs ≠ []) :
    ∃ b, pickClosest obs t = some b
      ∧ (∀ o ∈ obs, tdiff t b ≤ tdiff t o)
      ∧ ∃ i, ∃ hi : i < obs.length, b = obs.get ⟨i, hi⟩
          ∧ ∀ j, ∀ hj : j < obs.length, j < i →
              tdiff t b < tdiff t (obs.get ⟨j, hj⟩) := by
  cases obs with
  | nil => exact absurd rfl hne
  | cons o0 rest =>
      obtain ⟨h1, h2, h3⟩ := pickBest_spec t (o0 :: rest) o0
      refine ⟨pickBest t (o0 :: rest) o0 (tdiff t o0), rfl, h2, ?_⟩
      rcases h3 with hb | ⟨i, hi, heq2, hlt2, hfirst⟩
      · refine ⟨0, Nat.succ_pos _, hb, ?_⟩
        intro j hj hj0
        exact absurd hj0 (Nat.not_lt_zero j)
      · refine ⟨i, hi, heq2, ?_⟩
        intro j hj hjlt
        rw [heq2]
        exact hfirst j hj hjlt

/-- An observation carrying only a timestamp, for concrete witnesses. -/
def mkObs (q : ℚ) : WeatherObservation :=
  { timestamp := q, temperature_c := none, humidity_pct := none,
    wind_speed_ms := none, precipitation_mm := none }

/-- Observations at instants 0, 5 and 10, the spec's matcher example. -/
def obs3 : List WeatherObservation := [mkObs 0, mkObs 5, mkObs 10]

/-- Witness for C1 on observations at 0, 5, 10 with target 7: the theorem
applies, and concretely the matcher returns the observation at 5
(difference 2 beating difference 3). -/
theorem C1_pickClosest_witness :
    (∃ b, pickClosest obs3 7 = some b
      ∧ (∀ o ∈ obs3, tdiff 7 b ≤ tdiff 7 o)
      ∧ ∃ i, ∃ hi : i < obs3.length, b = obs3.get ⟨i, hi⟩
          ∧ ∀ j, ∀ hj : j < obs3.length, j < i →
              tdiff 7 b < tdiff 7 (obs3.get ⟨j, hj⟩))
  ∧ pickClosest obs3 7 = some (mkObs 5) := by
  refine ⟨C1_pickClosest obs3 7 (by simp [obs3]), ?_⟩
  have e0 : tdiff 7 (mkObs 0) = 7 := by
    show |(0:ℚ) - 7| = 7
    rw [abs_of_nonpos (by norm_num)]
    norm_num
  have e5 : tdiff 7 (mkObs 5) = 2 := by
    show |(5:ℚ) - 7| = 2
    rw [abs_of_nonpos (by norm_num)]
    norm_num
  have e10 : tdiff 7 (mkObs 10) = 3 := by
    show |(10:ℚ) - 7| = 3
    rw [abs_of_nonneg (by norm_num)]
    norm_num
  have hrun : pickBest 7 obs3 (mkObs 0) (tdiff 7 (mkObs 0)) = mkObs 5 := by
    show pickBest 7 [mkObs 0, mkObs 5, mkObs 10] (mkObs 0) (tdiff 7 (mkObs 0)) = mkObs 5
    simp only [pickBest, e0, e5, e10]
    norm_num
  show some (pickBest 7 obs3 (mkObs 0) (tdiff 7 (mkObs 0))) = some (mkObs 5)
  rw [hrun]
